import Mathlib

/-!
Verification of the velero-vmgroup-plugin against its specification.

The development shallowly embeds the three plugin actions of the repository:

* `VMGroupBackupItemAction.Execute` together with its helpers
  `extractSecretsFromVM` / `extractPVCsFromVM` (pkg/plugin, backup action),
* `PVCRestoreItemAction.Execute` (pkg/plugin/pvc_restore.go),
* `VMRestoreItemAction.Execute` together with
  `injectNetworkConfigFromStatus` (the unstructured-based VM restore action).

The Kubernetes "unstructured" objects handled by the restore actions are
modelled as JSON-like trees (`Uval`) with association-list objects; the
`k8s.io/apimachinery` nested accessors used by the Go code
(`NestedString`, `NestedMap`, `NestedStringMap`, `SetNestedField`,
`SetNestedStringMap`) are embedded as functions over these trees.
-/

namespace VMPlugin

/-- JSON-like value underlying a Kubernetes unstructured object
(`map[string]interface{}` in the Go source).  Objects are association
lists; Go map keys are unique, lookups return the first binding. -/
inductive Uval where
  | str : String → Uval
  | num : Int → Uval
  | bool : Bool → Uval
  | null : Uval
  | arr : List Uval → Uval
  | obj : List (String × Uval) → Uval

mutual

/-- Decidable equality for `Uval` (written by hand: the automatic deriving
does not handle the nesting through `List`). -/
def Uval.decEq : (a b : Uval) → Decidable (a = b)
  | .str a, .str b =>
      if h : a = b then isTrue (by rw [h])
      else isFalse (fun hh => by cases hh; exact h rfl)
  | .num a, .num b =>
      if h : a = b then isTrue (by rw [h])
      else isFalse (fun hh => by cases hh; exact h rfl)
  | .bool a, .bool b =>
      if h : a = b then isTrue (by rw [h])
      else isFalse (fun hh => by cases hh; exact h rfl)
  | .null, .null => isTrue rfl
  | .arr a, .arr b =>
      match Uval.decEqList a b with
      | isTrue h => isTrue (by rw [h])
      | isFalse h => isFalse (fun hh => by cases hh; exact h rfl)
  | .obj a, .obj b =>
      match Uval.decEqPairs a b with
      | isTrue h => isTrue (by rw [h])
      | isFalse h => isFalse (fun hh => by cases hh; exact h rfl)
  | .str _, .num _ => isFalse (fun h => Uval.noConfusion h)
  | .str _, .bool _ => isFalse (fun h => Uval.noConfusion h)
  | .str _, .null => isFalse (fun h => Uval.noConfusion h)
  | .str _, .arr _ => isFalse (fun h => Uval.noConfusion h)
  | .str _, .obj _ => isFalse (fun h => Uval.noConfusion h)
  | .num _, .str _ => isFalse (fun h => Uval.noConfusion h)
  | .num _, .bool _ => isFalse (fun h => Uval.noConfusion h)
  | .num _, .null => isFalse (fun h => Uval.noConfusion h)
  | .num _, .arr _ => isFalse (fun h => Uval.noConfusion h)
  | .num _, .obj _ => isFalse (fun h => Uval.noConfusion h)
  | .bool _, .str _ => isFalse (fun h => Uval.noConfusion h)
  | .bool _, .num _ => isFalse (fun h => Uval.noConfusion h)
  | .bool _, .null => isFalse (fun h => Uval.noConfusion h)
  | .bool _, .arr _ => isFalse (fun h => Uval.noConfusion h)
  | .bool _, .obj _ => isFalse (fun h => Uval.noConfusion h)
  | .null, .str _ => isFalse (fun h => Uval.noConfusion h)
  | .null, .num _ => isFalse (fun h => Uval.noConfusion h)
  | .null, .bool _ => isFalse (fun h => Uval.noConfusion h)
  | .null, .arr _ => isFalse (fun h => Uval.noConfusion h)
  | .null, .obj _ => isFalse (fun h => Uval.noConfusion h)
  | .arr _, .str _ => isFalse (fun h => Uval.noConfusion h)
  | .arr _, .num _ => isFalse (fun h => Uval.noConfusion h)
  | .arr _, .bool _ => isFalse (fun h => Uval.noConfusion h)
  | .arr _, .null => isFalse (fun h => Uval.noConfusion h)
  | .arr _, .obj _ => isFalse (fun h => Uval.noConfusion h)
  | .obj _, .str _ => isFalse (fun h => Uval.noConfusion h)
  | .obj _, .num _ => isFalse (fun h => Uval.noConfusion h)
  | .obj _, .bool _ => isFalse (fun h => Uval.noConfusion h)
  | .obj _, .null => isFalse (fun h => Uval.noConfusion h)
  | .obj _, .arr _ => isFalse (fun h => Uval.noConfusion h)

/-- Decidable equality for lists of `Uval`. -/
def Uval.decEqList : (a b : List Uval) → Decidable (a = b)
  | [], [] => isTrue rfl
  | [], _ :: _ => isFalse (fun h => List.noConfusion h)
  | _ :: _, [] => isFalse (fun h => List.noConfusion h)
  | a :: as, b :: bs =>
      match Uval.decEq a b with
      | isTrue h1 =>
        match Uval.decEqList as bs with
        | isTrue h2 => isTrue (by rw [h1, h2])
        | isFalse h2 => isFalse (fun hh => by cases hh; exact h2 rfl)
      | isFalse h1 => isFalse (fun hh => by cases hh; exact h1 rfl)

/-- Decidable equality for key/value pair lists of `Uval`. -/
def Uval.decEqPairs : (a b : List (String × Uval)) → Decidable (a = b)
  | [], [] => isTrue rfl
  | [], _ :: _ => isFalse (fun h => List.noConfusion h)
  | _ :: _, [] => isFalse (fun h => List.noConfusion h)
  | (k, v) :: as, (k', v') :: bs =>
      if h1 : k = k' then
        match Uval.decEq v v' with
        | isTrue h2 =>
          match Uval.decEqPairs as bs with
          | isTrue h3 => isTrue (by rw [h1, h2, h3])
          | isFalse h3 => isFalse (fun hh => by cases hh; exact h3 rfl)
        | isFalse h2 => isFalse (fun hh => by cases hh; exact h2 rfl)
      else isFalse (fun hh => by cases hh; exact h1 rfl)

end

instance : DecidableEq Uval := Uval.decEq

/-- An unstructured object: the top-level `map[string]interface{}`. -/
abbrev UObj := List (String × Uval)

/-- Lookup of a key in an object (Go map indexing `m[field]`). -/
def objGet : UObj → String → Option Uval
  | [], _ => none
  | (k', v) :: rest, k => if k' = k then some v else objGet rest k

/-- Update/insert of a key in an object (Go map assignment `m[field] = v`).
The first existing binding is replaced in place; a missing key is appended. -/
def objSet : UObj → String → Uval → UObj
  | [], k, v => [(k, v)]
  | (k', v') :: rest, k, v =>
      if k' = k then (k, v) :: rest else (k', v') :: objSet rest k v

/-- Model of `unstructured.NestedFieldNoCopy`: descend through nested maps;
absent keys and non-map intermediates both yield `none` (the Go callers in
this repository discard the `error` return and treat both as not-found). -/
def nestedField (m : UObj) : List String → Option Uval
  | [] => some (Uval.obj m)
  | [k] => objGet m k
  | k :: k2 :: rest =>
      match objGet m k with
      | some (Uval.obj m2) => nestedField m2 (k2 :: rest)
      | _ => none

/-- Model of `unstructured.NestedString`: the path must resolve to a string. -/
def nestedString (m : UObj) (path : List String) : Option String :=
  match nestedField m path with
  | some (Uval.str s) => some s
  | _ => none

/-- Model of `unstructured.NestedMap`: the path must resolve to a map.
(The `found && specNetwork != nil` check in the Go caller coincides with
this: a JSON-derived value found at the path is a non-nil map exactly when
it is an object.) -/
def nestedMap (m : UObj) (path : List String) : Option UObj :=
  match nestedField m path with
  | some (Uval.obj mm) => some mm
  | _ => none

/-- All values of an object as strings; `none` if any value is not a
string (the error case of `unstructured.NestedStringMap`). -/
def allStrings : UObj → Option (List (String × String))
  | [] => some []
  | (k, Uval.str s) :: rest => (allStrings rest).map (fun t => (k, s) :: t)
  | _ :: _ => none

/-- Model of `unstructured.NestedStringMap`. -/
def nestedStringMap (m : UObj) (path : List String) :
    Option (List (String × String)) :=
  (nestedMap m path).bind allStrings

/-- Model of `unstructured.SetNestedField`: create intermediate maps for
missing keys, fail (`none`) when an existing intermediate is not a map.
(In the Go implementation the failure occurs before any mutation for the
two-segment paths used here, so `none` faithfully leaves the object
unchanged.) -/
def setNestedField (m : UObj) (v : Uval) : List String → Option UObj
  | [] => none
  | [k] => some (objSet m k v)
  | k :: k2 :: rest =>
      match objGet m k with
      | some (Uval.obj m2) =>
          (setNestedField m2 v (k2 :: rest)).map
            (fun m2' => objSet m k (Uval.obj m2'))
      | some _ => none
      | none =>
          (setNestedField [] v (k2 :: rest)).map
            (fun m2' => objSet m k (Uval.obj m2'))

/-- Model of `unstructured.SetNestedStringMap`. -/
def setNestedStringMap (m : UObj) (sm : List (String × String))
    (path : List String) : Option UObj :=
  setNestedField m (Uval.obj (sm.map (fun p => (p.1, Uval.str p.2)))) path

/-! ## Typed data model (vm-operator API types used by the plugin) -/

/-- `veleroplugin.ResourceIdentifier`: a `(GroupResource, namespace, name)`
triple.  `ns` stands for the Go field `Namespace` (`namespace` is a Lean
keyword). -/
structure ResourceIdentifier where
  group : String
  resource : String
  ns : String
  name : String
deriving DecidableEq, Repr

/-- `vm.Spec.Bootstrap.CloudInit.RawCloudConfig` (a secret key selector;
only the `Name` field is read by the plugin). -/
structure RawCloudConfig where
  name : String
deriving DecidableEq, Repr

/-- `vm.Spec.Bootstrap.CloudInit`. -/
structure CloudInit where
  rawCloudConfig : Option RawCloudConfig
deriving DecidableEq, Repr

/-- `vm.Spec.Bootstrap`. -/
structure Bootstrap where
  cloudInit : Option CloudInit
deriving DecidableEq, Repr

/-- `volume.PersistentVolumeClaim` (`claimName` field). -/
structure PersistentVolumeClaimSource where
  claimName : String
deriving DecidableEq, Repr

/-- An entry of `vm.Spec.Volumes`. -/
structure VirtualMachineVolume where
  name : String
  persistentVolumeClaim : Option PersistentVolumeClaimSource
deriving DecidableEq, Repr

/-- The fields of `vmopv1.VirtualMachineSpec` read by the plugin. -/
structure VirtualMachineSpec where
  instanceUUID : String
  groupName : String
  bootstrap : Option Bootstrap
  volumes : List VirtualMachineVolume
deriving DecidableEq, Repr

/-- The fields of `vmopv1.VirtualMachine` read by the plugin: object
metadata plus the spec subset above.  `annotations = none` models a nil
Go map. -/
structure VirtualMachine where
  ns : String
  name : String
  annotations : Option (List (String × String))
  spec : VirtualMachineSpec
deriving DecidableEq, Repr

/-- A member entry of a boot-order group (`member.Name`). -/
structure GroupMember where
  name : String
deriving DecidableEq, Repr

/-- An entry of `vmGroup.Spec.BootOrder` with its `Members` list. -/
structure BootOrderGroup where
  members : List GroupMember
deriving DecidableEq, Repr

/-- The fields of `vmopv1.VirtualMachineGroupSpec` read by the plugin.
`bootOrder = none` models a nil Go slice (the `Spec.BootOrder == nil`
check); `some []` models a present empty list. -/
structure VirtualMachineGroupSpec where
  bootOrder : Option (List BootOrderGroup)
deriving DecidableEq, Repr

/-- The fields of `vmopv1.VirtualMachineGroup` read by the plugin. -/
structure VirtualMachineGroup where
  ns : String
  name : String
  spec : VirtualMachineGroupSpec
deriving DecidableEq, Repr

/-! ## Backup action (`VMGroupBackupItemAction`) -/

/-- The identifier emitted for a VirtualMachine member. -/
def vmIdentifier (ns vmName : String) : ResourceIdentifier :=
  { group := "vmoperator.vmware.com", resource := "virtualmachines"
    ns := ns, name := vmName }

/-- `extractSecretsFromVM`: the bootstrap secret reference of a
VirtualMachine, from `spec.bootstrap.cloudInit.rawCloudConfig.name`;
empty when any link of the chain is absent or the name is empty. -/
def extractSecretsFromVM (vm : VirtualMachine) (ns : String) :
    List ResourceIdentifier :=
  match vm.spec.bootstrap with
  | none => []
  | some b =>
    match b.cloudInit with
    | none => []
    | some ci =>
      match ci.rawCloudConfig with
      | none => []
      | some rcc =>
        if rcc.name = "" then []
        else [{ group := "", resource := "secrets", ns := ns, name := rcc.name }]

/-- `extractPVCsFromVM`: one identifier per volume bound to a claim
(`volume.persistentVolumeClaim.claimName` present and non-empty). -/
def extractPVCsFromVM (vm : VirtualMachine) (ns : String) :
    List ResourceIdentifier :=
  vm.spec.volumes.filterMap (fun volume =>
    match volume.persistentVolumeClaim with
    | none => none
    | some pvc =>
      if pvc.claimName = "" then none
      else some { group := "", resource := "persistentvolumeclaims"
                  ns := ns, name := pvc.claimName })

/-- The items contributed by one member of one boot-order entry in
`VMGroupBackupItemAction.Execute`: the member's own VM identifier is
appended first, then (only when `getVirtualMachine` succeeds) the
member's secret and PVC identifiers.  `fetch ns name` models the
`p.getVirtualMachine(namespace, vmName)` call; `none` is a failed fetch,
which is logged and skipped (`continue`). -/
def memberItems (fetch : String → String → Option VirtualMachine)
    (ns vmName : String) : List ResourceIdentifier :=
  vmIdentifier ns vmName ::
    (match fetch ns vmName with
     | none => []
     | some vm => extractSecretsFromVM vm ns ++ extractPVCsFromVM vm ns)

/-- The `additionalItems` list built by `VMGroupBackupItemAction.Execute`
after a successful conversion: empty when `Spec.BootOrder` is nil,
otherwise the concatenation over all boot-order entries and members. -/
def vmGroupAdditionalItems (g : VirtualMachineGroup)
    (fetch : String → String → Option VirtualMachine) :
    List ResourceIdentifier :=
  match g.spec.bootOrder with
  | none => []
  | some bootOrders =>
      bootOrders.flatMap (fun bootOrder =>
        bootOrder.members.flatMap (fun member =>
          memberItems fetch g.ns member.name))

/-! ## Conversion from unstructured objects to the typed model

These functions embed `runtime.DefaultUnstructuredConverter.FromUnstructured`
restricted to the schema subset defined above: a wrong-typed field is a
conversion error (`none`), an absent or null field yields the Go zero
value, and fields outside the modelled subset are ignored by the typed
representation (mirroring the converter's treatment of unknown fields). -/

/-- A string-typed struct field: absent/null gives `""`, any non-string
value is a conversion error. -/
def parseStringField (m : UObj) (k : String) : Option String :=
  match objGet m k with
  | none => some ""
  | some Uval.null => some ""
  | some (Uval.str s) => some s
  | some _ => none

/-- A `map[string]string` field: absent/null gives a nil map, a non-map
value or a non-string entry is a conversion error. -/
def parseStringMapField (m : UObj) (k : String) :
    Option (Option (List (String × String))) :=
  match objGet m k with
  | none => some none
  | some Uval.null => some none
  | some (Uval.obj ann) => (allStrings ann).map some
  | some _ => none

/-- An optional (pointer) struct field: absent/null gives `none`, an
object is parsed by `p`, anything else is a conversion error. -/
def parseOptField (p : UObj → Option α) : Option Uval → Option (Option α)
  | none => some none
  | some Uval.null => some none
  | some (Uval.obj m) => (p m).map some
  | some _ => none

/-- Parse every element of a JSON array. -/
def parseList (p : Uval → Option α) : List Uval → Option (List α)
  | [] => some []
  | v :: rest => do
      let a ← p v
      let as ← parseList p rest
      some (a :: as)

/-- A non-pointer struct field: absent/null gives the zero struct
(an empty object), a non-object value is a conversion error. -/
def getObjField (m : UObj) (k : String) : Option UObj :=
  match objGet m k with
  | none => some []
  | some Uval.null => some []
  | some (Uval.obj mm) => some mm
  | some _ => none

def parseRawCloudConfigObj (m : UObj) : Option RawCloudConfig :=
  (parseStringField m "name").map (fun n => { name := n })

def parseCloudInitObj (m : UObj) : Option CloudInit :=
  (parseOptField parseRawCloudConfigObj (objGet m "rawCloudConfig")).map
    (fun r => { rawCloudConfig := r })

def parseBootstrapObj (m : UObj) : Option Bootstrap :=
  (parseOptField parseCloudInitObj (objGet m "cloudInit")).map
    (fun c => { cloudInit := c })

def parsePVCSourceObj (m : UObj) : Option PersistentVolumeClaimSource :=
  (parseStringField m "claimName").map (fun n => { claimName := n })

def parseVolume : Uval → Option VirtualMachineVolume
  | Uval.obj m => do
      let nm ← parseStringField m "name"
      let pvc ← parseOptField parsePVCSourceObj (objGet m "persistentVolumeClaim")
      some { name := nm, persistentVolumeClaim := pvc }
  | _ => none

/-- `spec.volumes`: absent/null gives a nil slice. -/
def parseVolumesField (spec : UObj) : Option (List VirtualMachineVolume) :=
  match objGet spec "volumes" with
  | none => some []
  | some Uval.null => some []
  | some (Uval.arr vs) => parseList parseVolume vs
  | some _ => none

/-- Conversion of an unstructured object to a `VirtualMachine`
(the `FromUnstructured` call in the VM restore action). -/
def fromUnstructuredVM (o : UObj) : Option VirtualMachine := do
  let md ← getObjField o "metadata"
  let ns ← parseStringField md "namespace"
  let name ← parseStringField md "name"
  let ann ← parseStringMapField md "annotations"
  let spec ← getObjField o "spec"
  let iid ← parseStringField spec "instanceUUID"
  let gn ← parseStringField spec "groupName"
  let bs ← parseOptField parseBootstrapObj (objGet spec "bootstrap")
  let vols ← parseVolumesField spec
  some { ns := ns, name := name, annotations := ann
         spec := { instanceUUID := iid, groupName := gn
                   bootstrap := bs, volumes := vols } }

def parseGroupMember : Uval → Option GroupMember
  | Uval.obj m => (parseStringField m "name").map (fun n => { name := n })
  | _ => none

def parseBootOrderGroup : Uval → Option BootOrderGroup
  | Uval.obj m =>
      match objGet m "members" with
      | none => some { members := [] }
      | some Uval.null => some { members := [] }
      | some (Uval.arr ms) =>
          (parseList parseGroupMember ms).map (fun l => { members := l })
      | some _ => none
  | _ => none

/-- Conversion of an unstructured object to a `VirtualMachineGroup`
(the `FromUnstructured` call in the backup action).  `spec.bootOrder`
absent/null gives a nil slice (`none`); a present empty array gives
`some []`. -/
def fromUnstructuredVMGroup (o : UObj) : Option VirtualMachineGroup := do
  let md ← getObjField o "metadata"
  let ns ← parseStringField md "namespace"
  let name ← parseStringField md "name"
  let spec ← getObjField o "spec"
  let bo ← (match objGet spec "bootOrder" with
    | none => some none
    | some Uval.null => some none
    | some (Uval.arr bos) => (parseList parseBootOrderGroup bos).map some
    | some _ => none)
  some { ns := ns, name := name, spec := { bootOrder := bo } }

/-- `VMGroupBackupItemAction.Execute`: convert the item (an error is
returned to the caller as `none`), then collect the additional items;
the item itself is returned unmodified and no error is possible past the
conversion. -/
def vmGroupBackupExecute (item : UObj)
    (fetch : String → String → Option VirtualMachine) :
    Option (UObj × List ResourceIdentifier) :=
  (fromUnstructuredVMGroup item).map
    (fun g => (item, vmGroupAdditionalItems g fetch))

/-! ## PVC restore action (`PVCRestoreItemAction`) -/

/-- The fields of `corev1.PersistentVolumeClaim` read or rewritten by
the plugin (typed conversion target of the PVC restore action). -/
structure PersistentVolumeClaim where
  apiVersion : String
  kind : String
  ns : String
  name : String
  annotations : Option (List (String × String))
deriving DecidableEq, Repr

/-- Conversion of an unstructured object to the modelled
`PersistentVolumeClaim` subset. -/
def fromUnstructuredPVC (o : UObj) : Option PersistentVolumeClaim := do
  let av ← parseStringField o "apiVersion"
  let kd ← parseStringField o "kind"
  let md ← getObjField o "metadata"
  let ns ← parseStringField md "namespace"
  let name ← parseStringField md "name"
  let ann ← parseStringMapField md "annotations"
  some { apiVersion := av, kind := kd, ns := ns, name := name
         annotations := ann }

def strMapToUObj (l : List (String × String)) : UObj :=
  l.map (fun p => (p.1, Uval.str p.2))

/-- Model of `runtime.DefaultUnstructuredConverter.ToUnstructured` on the
modelled `PersistentVolumeClaim` subset: zero-valued string fields and
nil/empty annotation maps are omitted (`omitempty`), fields not in the
typed representation are not reproduced. -/
def toUnstructuredPVC (pvc : PersistentVolumeClaim) : UObj :=
  (if pvc.apiVersion = "" then [] else [("apiVersion", Uval.str pvc.apiVersion)]) ++
  (if pvc.kind = "" then [] else [("kind", Uval.str pvc.kind)]) ++
  [("metadata", Uval.obj (
    (if pvc.name = "" then [] else [("name", Uval.str pvc.name)]) ++
    (if pvc.ns = "" then [] else [("namespace", Uval.str pvc.ns)]) ++
    (match pvc.annotations with
     | none => []
     | some [] => []
     | some l => [("annotations", Uval.obj (strMapToUObj l))])))]

/-- The annotation key removed by the PVC restore action. -/
def volumeHealthAnnotation : String := "volumehealth.storage.kubernetes.io/health"

/-- The mutation performed on the typed PVC: delete the volume-health
annotation when present (a no-op map delete otherwise, which yields an
equal object). -/
def removeVolumeHealth (pvc : PersistentVolumeClaim) :
    PersistentVolumeClaim :=
  { pvc with annotations :=
      pvc.annotations.map (fun l =>
        l.filter (fun p => ¬ p.1 = volumeHealthAnnotation)) }

/-- The annotation normalization performed implicitly by the typed
round trip: a present-but-empty annotation map is marshalled away
(`omitempty`) and read back as a nil map. -/
def normAnnotations (t : PersistentVolumeClaim) : PersistentVolumeClaim :=
  { t with annotations :=
      match t.annotations with
      | some [] => none
      | x => x }

/-- `PVCRestoreItemAction.Execute`: convert to a typed PVC (conversion
failure is an error, `none`), delete the volume-health annotation, and
always convert back to unstructured — the input item is never passed
through unconverted and no change flag is produced. -/
def pvcRestoreExecute (item : UObj) : Option UObj :=
  (fromUnstructuredPVC item).map
    (fun pvc => toUnstructuredPVC (removeVolumeHealth pvc))

/-! ## VM restore action (`VMRestoreItemAction`) -/

/-- The annotation key removed by the VM restore action. -/
def firstBootDoneAnnotation : String :=
  "virtualmachine.vmoperator.vmware.com/first-boot-done"

/-- Step 1 of `VMRestoreItemAction.Execute`: clear a non-empty
`spec.instanceUUID` to `""` (the field stays present) and report
`modified`.  The Go code discards the `SetNestedField` error (which
cannot occur here since `spec` was just read through as a map). -/
def removeInstanceUUID (o : UObj) : UObj × Bool :=
  match nestedString o ["spec", "instanceUUID"] with
  | some s =>
      if s = "" then (o, false)
      else ((setNestedField o (Uval.str "") ["spec", "instanceUUID"]).getD o, true)
  | none => (o, false)

/-- Step 2 of `VMRestoreItemAction.Execute`: remove the first-boot-done
annotation key when the annotations read as a string map containing it,
writing the remaining entries back. -/
def removeFirstBootDone (o : UObj) : UObj × Bool :=
  match nestedStringMap o ["metadata", "annotations"] with
  | some ann =>
      if ann.any (fun p => p.1 = firstBootDoneAnnotation) then
        ((setNestedStringMap o
            (ann.filter (fun p => ¬ p.1 = firstBootDoneAnnotation))
            ["metadata", "annotations"]).getD o, true)
      else (o, false)
  | none => (o, false)

/-- Step 3 of `VMRestoreItemAction.Execute`
(`injectNetworkConfigFromStatus`): when `spec.network` is not already
present as a map, copy `status.network.config` (when present as a map)
into `spec.network`; a failing `SetNestedMap` is logged and reported as
no change. -/
def injectNetworkConfigFromStatus (o : UObj) : UObj × Bool :=
  match nestedMap o ["spec", "network"] with
  | some _ => (o, false)
  | none =>
      match nestedMap o ["status", "network", "config"] with
      | none => (o, false)
      | some cfg =>
          match setNestedField o (Uval.obj cfg) ["spec", "network"] with
          | none => (o, false)
          | some o2 => (o2, true)

/-- The three sanitization steps of `VMRestoreItemAction.Execute` in
order, returning the sanitized object and the `modified` flag. -/
def vmSanitize (o : UObj) : UObj × Bool :=
  let r1 := removeInstanceUUID o
  let r2 := removeFirstBootDone r1.1
  let r3 := injectNetworkConfigFromStatus r2.1
  (r3.1, r1.2 || r2.2 || r3.2)

/-- `veleroplugin.RestoreItemActionExecuteOutput`. -/
structure RestoreItemActionExecuteOutput where
  updatedItem : UObj
  additionalItems : List ResourceIdentifier
  waitForAdditionalItems : Bool
deriving DecidableEq

/-- The identifier of the ancestor VirtualMachineGroup added by the VM
restore action. -/
def vmGroupIdentifier (ns gName : String) : ResourceIdentifier :=
  { group := "vmoperator.vmware.com", resource := "virtualmachinegroups"
    ns := ns, name := gName }

/-- `VMRestoreItemAction.Execute` (unstructured-based variant): read the
namespace, sanitize, keep the original item when unmodified, convert the
sanitized object to a typed VM (failure is an error, `none`), and when
`spec.groupName` is non-empty add the group identifier and set
`WaitForAdditionalItems`. -/
def vmRestoreExecute (item : UObj) : Option RestoreItemActionExecuteOutput :=
  let ns := (nestedString item ["metadata", "namespace"]).getD ""
  let r := vmSanitize item
  let updatedItem := if r.2 then r.1 else item
  (fromUnstructuredVM r.1).map (fun vm =>
    if vm.spec.groupName = "" then
      { updatedItem := updatedItem, additionalItems := []
        waitForAdditionalItems := false }
    else
      { updatedItem := updatedItem
        additionalItems := [vmGroupIdentifier ns vm.spec.groupName]
        waitForAdditionalItems := true })

/-! ## Concrete objects used by witnesses and counterexamples -/

/-- A VM-shaped object declaring group `g1` (witness input). -/
def vmWithGroupItem : UObj :=
  [("metadata", Uval.obj [("name", Uval.str "vm-1"),
      ("namespace", Uval.str "ns")]),
   ("spec", Uval.obj [("groupName", Uval.str "g1")])]

/-- The typed conversion of `vmWithGroupItem`. -/
def vmWithGroupTyped : VirtualMachine :=
  { ns := "ns", name := "vm-1", annotations := none
    spec := { instanceUUID := "", groupName := "g1"
              bootstrap := none, volumes := [] } }

/-- The restore output for `vmWithGroupItem`. -/
def vmWithGroupOut : RestoreItemActionExecuteOutput :=
  { updatedItem := vmWithGroupItem
    additionalItems := [vmGroupIdentifier "ns" "g1"]
    waitForAdditionalItems := true }

/-- A VM-shaped object declaring no group (witness input). -/
def vmNoGroupItem : UObj :=
  [("metadata", Uval.obj [("name", Uval.str "vm-2"),
      ("namespace", Uval.str "ns")]),
   ("spec", Uval.obj [("groupName", Uval.str "")])]

/-- The restore output for `vmNoGroupItem`. -/
def vmNoGroupOut : RestoreItemActionExecuteOutput :=
  { updatedItem := vmNoGroupItem
    additionalItems := []
    waitForAdditionalItems := false }

/-- A group whose two boot phases name the same member `m1`
(counterexample input for duplicate collapsing). -/
def dupMemberGroup : VirtualMachineGroup :=
  { ns := "ns", name := "g1"
    spec := { bootOrder := some ([
      { members := [{ name := "m1" }] },
      { members := [{ name := "m1" }] }]) } }

/-- A PVC-shaped object with no health-check annotation and one field
outside the typed PVC schema (counterexample input for byte-for-byte
pass-through). -/
def pvcExtraFieldItem : UObj :=
  [("metadata", Uval.obj [("name", Uval.str "p"),
      ("namespace", Uval.str "ns")]),
   ("x-extra", Uval.str "v")]

/-- What the PVC restore action actually returns for
`pvcExtraFieldItem`: the typed round trip drops the unknown field. -/
def pvcExtraFieldResult : UObj :=
  [("metadata", Uval.obj [("name", Uval.str "p"),
      ("namespace", Uval.str "ns")])]

/-- A normalized PVC-shaped object with one unrelated annotation
(witness input for the amended pass-through claim). -/
def pvcNormalizedItem : UObj :=
  [("apiVersion", Uval.str "v1"),
   ("kind", Uval.str "PersistentVolumeClaim"),
   ("metadata", Uval.obj [("name", Uval.str "p"),
      ("namespace", Uval.str "ns"),
      ("annotations", Uval.obj [("a", Uval.str "b")])])]

/-- The typed conversion of `pvcNormalizedItem`. -/
def pvcNormalizedTyped : PersistentVolumeClaim :=
  { apiVersion := "v1", kind := "PersistentVolumeClaim"
    ns := "ns", name := "p", annotations := some [("a", "b")] }

/-- A PVC-shaped object carrying the volume-health annotation (witness
input for idempotence). -/
def pvcHealthyItem : UObj :=
  [("apiVersion", Uval.str "v1"),
   ("kind", Uval.str "PersistentVolumeClaim"),
   ("metadata", Uval.obj [("name", Uval.str "p"),
      ("namespace", Uval.str "ns"),
      ("annotations", Uval.obj
        [("volumehealth.storage.kubernetes.io/health", Uval.str "Healthy"),
         ("a", Uval.str "b")])])]

/-- A VM-shaped object with an empty-but-present `spec.network` section
and an observed network configuration (counterexample input for the
injection claim). -/
def emptyNetworkItem : UObj :=
  [("spec", Uval.obj [("network", Uval.obj [])]),
   ("status", Uval.obj [("network", Uval.obj
      [("config", Uval.obj [("interfaces", Uval.str "eth0")])])])]

/-- A VM-shaped object with `spec.network` absent and an observed
network configuration (witness input for the amended injection claim). -/
def absentNetworkItem : UObj :=
  [("spec", Uval.obj [("groupName", Uval.str "")]),
   ("status", Uval.obj [("network", Uval.obj
      [("config", Uval.obj [("interfaces", Uval.str "eth0")])])])]

/-- A VM-shaped object with a populated `spec.network` and a different
observed configuration (witness input: pre-existing desired state wins). -/
def populatedNetworkItem : UObj :=
  [("spec", Uval.obj [("network", Uval.obj [("interfaces", Uval.str "old")])]),
   ("status", Uval.obj [("network", Uval.obj
      [("config", Uval.obj [("interfaces", Uval.str "new")])])])]

/-- A VM-shaped object with a non-empty instance UUID, a first-boot-done
annotation next to an unrelated one, and unrelated fields (witness input
for the frame claim). -/
def sanitizeFrameItem : UObj :=
  [("metadata", Uval.obj [("name", Uval.str "vm-1"),
      ("namespace", Uval.str "ns"),
      ("annotations", Uval.obj
        [("virtualmachine.vmoperator.vmware.com/first-boot-done",
            Uval.str "true"),
         ("keep", Uval.str "x")])]),
   ("spec", Uval.obj [("instanceUUID", Uval.str "abc"),
      ("groupName", Uval.str "g1")]),
   ("status", Uval.obj [("phase", Uval.str "Created")])]

/-- A member VM with a bootstrap secret and one claim-bound volume
(witness data for extraction claims). -/
def memberWithDeps : VirtualMachine :=
  { ns := "ns", name := "vm-1", annotations := none
    spec := { instanceUUID := "", groupName := ""
              bootstrap := some (Bootstrap.mk (some (CloudInit.mk
                (some (RawCloudConfig.mk "s1")))))
              volumes := ([
                { name := "data"
                  persistentVolumeClaim := some { claimName := "pvc-1" } },
                { name := "scratch", persistentVolumeClaim := none }]) } }

/-- A member VM with no bootstrap chain and no claim-bound volume
(witness data for the no-emission claims). -/
def memberNoDeps : VirtualMachine :=
  { ns := "ns", name := "vm-2", annotations := none
    spec := { instanceUUID := "", groupName := ""
              bootstrap := some { cloudInit := some { rawCloudConfig := none } }
              volumes := [{ name := "v", persistentVolumeClaim := none }] } }

/-- A two-member group whose first member's fetch fails (witness input
for the partial-failure claim). -/
def partialFailureGroup : VirtualMachineGroup :=
  { ns := "ns", name := "g1"
    spec := { bootOrder := some ([
      { members := [{ name := "vm-broken" }, { name := "vm-1" }] }]) } }

/-- The unstructured form of `partialFailureGroup`. -/
def partialFailureGroupItem : UObj :=
  [("metadata", Uval.obj [("name", Uval.str "g1"),
      ("namespace", Uval.str "ns")]),
   ("spec", Uval.obj [("bootOrder", Uval.arr
      [Uval.obj [("members", Uval.arr
        [Uval.obj [("name", Uval.str "vm-broken")],
         Uval.obj [("name", Uval.str "vm-1")]])]])])]

/-- A fetch function that fails for `vm-broken` and succeeds for `vm-1`
(witness collaborator). -/
def partialFailureFetch : String → String → Option VirtualMachine :=
  fun _ n => if n = "vm-1" then some memberWithDeps else none

/-! ## Basic lemmas about the unstructured-object model -/

theorem objGet_objSet_self (m : UObj) (k : String) (v : Uval) :
    objGet (objSet m k v) k = some v := by
  induction m with
  | nil => simp [objGet, objSet]
  | cons p rest ih =>
      by_cases h : p.1 = k
      · simp [objSet, objGet, h]
      · simp [objSet, objGet, h, ih]

theorem objGet_objSet_ne (m : UObj) (k k' : String) (v : Uval) (h : k' ≠ k) :
    objGet (objSet m k v) k' = objGet m k' := by
  induction m with
  | nil => simp [objGet, objSet, Ne.symm h]
  | cons p rest ih =>
      obtain ⟨pk, pv⟩ := p
      by_cases hp : pk = k
      · subst hp
        simp [objSet, objGet, Ne.symm h]
      · by_cases hp' : pk = k'
        · simp [objSet, objGet, hp, hp', h]
        · simp [objSet, objGet, hp, hp', ih]

theorem nestedField_single (o : UObj) (a : String) :
    nestedField o [a] = objGet o a := rfl

theorem nestedField_cons (o : UObj) (a b : String) (rest : List String) :
    nestedField o (a :: b :: rest) =
      match objGet o a with
      | some (Uval.obj m2) => nestedField m2 (b :: rest)
      | _ => none := rfl

theorem nestedField_congr_head {o o' : UObj} {a : String} (rest : List String)
    (h : objGet o' a = objGet o a) :
    nestedField o' (a :: rest) = nestedField o (a :: rest) := by
  cases rest with
  | nil => rw [nestedField_single, nestedField_single, h]
  | cons b r => rw [nestedField_cons, nestedField_cons, h]

theorem nestedField_pair (o : UObj) (a b : String) :
    nestedField o [a, b] =
      match objGet o a with
      | some (Uval.obj m2) => objGet m2 b
      | _ => none := by
  rw [nestedField_cons]
  cases objGet o a with
  | none => rfl
  | some w => cases w <;> rfl

theorem nestedString_pair_inv {o : UObj} {a b s : String}
    (h : nestedString o [a, b] = some s) :
    ∃ sm, objGet o a = some (Uval.obj sm) ∧ objGet sm b = some (Uval.str s) := by
  unfold nestedString at h
  rw [nestedField_pair] at h
  cases hg : objGet o a with
  | none => rw [hg] at h; exact absurd h (by simp)
  | some w =>
      rw [hg] at h
      cases w <;> simp at h
      case obj sm =>
          refine ⟨sm, rfl, ?_⟩
          cases hv : objGet sm b with
          | none => rw [hv] at h; exact absurd h (by simp)
          | some u => rw [hv] at h; cases u <;> simp_all

theorem nestedMap_pair_inv {o : UObj} {a b : String} {mm : UObj}
    (h : nestedMap o [a, b] = some mm) :
    ∃ sm, objGet o a = some (Uval.obj sm) ∧ objGet sm b = some (Uval.obj mm) := by
  unfold nestedMap at h
  rw [nestedField_pair] at h
  cases hg : objGet o a with
  | none => rw [hg] at h; exact absurd h (by simp)
  | some w =>
      rw [hg] at h
      cases w <;> simp at h
      case obj sm =>
          refine ⟨sm, rfl, ?_⟩
          cases hv : objGet sm b with
          | none => rw [hv] at h; exact absurd h (by simp)
          | some u => rw [hv] at h; cases u <;> simp_all

theorem setNestedField_pair_obj {o : UObj} {a : String} {m2 : UObj}
    (b : String) (v : Uval) (h : objGet o a = some (Uval.obj m2)) :
    setNestedField o v [a, b] = some (objSet o a (Uval.obj (objSet m2 b v))) := by
  unfold setNestedField
  rw [h]
  rfl

theorem setNestedField_pair_absent {o : UObj} {a : String}
    (b : String) (v : Uval) (h : objGet o a = none) :
    setNestedField o v [a, b] = some (objSet o a (Uval.obj [(b, v)])) := by
  unfold setNestedField
  rw [h]
  rfl

theorem allStrings_strMapToUObj (l : List (String × String)) :
    allStrings (strMapToUObj l) = some l := by
  induction l with
  | nil => rfl
  | cons p rest ih => simp [strMapToUObj, allStrings] at ih ⊢; exact ih

theorem strMapToUObj_of_allStrings {ann : UObj} {sann : List (String × String)}
    (h : allStrings ann = some sann) : strMapToUObj sann = ann := by
  induction ann generalizing sann with
  | nil => simp [allStrings] at h; subst h; rfl
  | cons p rest ih =>
      obtain ⟨k, v⟩ := p
      cases v with
      | str s =>
          simp only [allStrings] at h
          cases hr : allStrings rest with
          | none => rw [hr] at h; exact absurd h (by simp)
          | some t =>
              rw [hr] at h
              simp at h
              subst h
              simp [strMapToUObj] at ih ⊢
              exact ih hr
      | num _ => exact absurd h (by simp [allStrings])
      | bool _ => exact absurd h (by simp [allStrings])
      | null => exact absurd h (by simp [allStrings])
      | arr _ => exact absurd h (by simp [allStrings])
      | obj _ => exact absurd h (by simp [allStrings])

theorem setNestedField_pair_notObj {o : UObj} {a : String} {w : Uval}
    (b : String) (v : Uval) (h : objGet o a = some w)
    (hw : ∀ m2, ¬ w = Uval.obj m2) : setNestedField o v [a, b] = none := by
  unfold setNestedField
  rw [h]
  cases w with
  | obj m2 => exact absurd rfl (hw m2)
  | str _ => rfl
  | num _ => rfl
  | bool _ => rfl
  | null => rfl
  | arr _ => rfl

theorem nestedStringMap_pair_inv {o : UObj} {a b : String}
    {sann : List (String × String)}
    (h : nestedStringMap o [a, b] = some sann) :
    ∃ md ann, objGet o a = some (Uval.obj md) ∧
      objGet md b = some (Uval.obj ann) ∧ allStrings ann = some sann := by
  unfold nestedStringMap at h
  cases hm : nestedMap o [a, b] with
  | none => rw [hm] at h; exact absurd h (by simp)
  | some ann =>
      rw [hm] at h
      simp at h
      obtain ⟨md, h1, h2⟩ := nestedMap_pair_inv hm
      exact ⟨md, ann, h1, h2, h⟩

/-! ### Characterization of the three sanitization steps -/

theorem removeInstanceUUID_eq (o : UObj) :
    removeInstanceUUID o = (o, false) ∨
    ∃ sm s, objGet o "spec" = some (Uval.obj sm) ∧
      objGet sm "instanceUUID" = some (Uval.str s) ∧ ¬ s = "" ∧
      removeInstanceUUID o =
        (objSet o "spec" (Uval.obj (objSet sm "instanceUUID" (Uval.str ""))),
          true) := by
  unfold removeInstanceUUID
  cases hs : nestedString o ["spec", "instanceUUID"] with
  | none => left; rfl
  | some s =>
      by_cases he : s = ""
      · left; simp [he]
      · right
        obtain ⟨sm, h1, h2⟩ := nestedString_pair_inv hs
        refine ⟨sm, s, h1, h2, he, ?_⟩
        rw [setNestedField_pair_obj "instanceUUID" (Uval.str "") h1]
        simp [he]

theorem removeFirstBootDone_eq (o : UObj) :
    removeFirstBootDone o = (o, false) ∨
    ∃ md ann sann, objGet o "metadata" = some (Uval.obj md) ∧
      objGet md "annotations" = some (Uval.obj ann) ∧
      allStrings ann = some sann ∧
      sann.any (fun p => p.1 = firstBootDoneAnnotation) = true ∧
      removeFirstBootDone o =
        (objSet o "metadata" (Uval.obj (objSet md "annotations"
          (Uval.obj (strMapToUObj
            (sann.filter (fun p => ¬ p.1 = firstBootDoneAnnotation)))))),
          true) := by
  unfold removeFirstBootDone
  cases hs : nestedStringMap o ["metadata", "annotations"] with
  | none => left; rfl
  | some sann =>
      by_cases ha : sann.any (fun p => p.1 = firstBootDoneAnnotation) = true
      · right
        obtain ⟨md, ann, h1, h2, h3⟩ := nestedStringMap_pair_inv hs
        refine ⟨md, ann, sann, h1, h2, h3, ha, ?_⟩
        unfold setNestedStringMap
        have hset := setNestedField_pair_obj "annotations"
          (Uval.obj ((sann.filter
            (fun p => ¬ p.1 = firstBootDoneAnnotation)).map
              (fun p => (p.1, Uval.str p.2)))) h1
        simp only [decide_not] at hset
        simp [ha, strMapToUObj]
        rw [hset]
        rfl
      · left; simp at ha; simp [ha]

theorem injectNetworkConfigFromStatus_eq (o : UObj) :
    injectNetworkConfigFromStatus o = (o, false) ∨
    ∃ cfg, nestedMap o ["spec", "network"] = none ∧
      nestedMap o ["status", "network", "config"] = some cfg ∧
      ((∃ sm, objGet o "spec" = some (Uval.obj sm) ∧
          injectNetworkConfigFromStatus o =
            (objSet o "spec" (Uval.obj (objSet sm "network" (Uval.obj cfg))),
              true)) ∨
       (objGet o "spec" = none ∧
          injectNetworkConfigFromStatus o =
            (objSet o "spec" (Uval.obj [("network", Uval.obj cfg)]), true))) := by
  unfold injectNetworkConfigFromStatus
  cases h1 : nestedMap o ["spec", "network"] with
  | some _ => left; rfl
  | none =>
      cases h2 : nestedMap o ["status", "network", "config"] with
      | none => left; rfl
      | some cfg =>
          cases hs : objGet o "spec" with
          | none =>
              right
              refine ⟨cfg, rfl, rfl, Or.inr ⟨rfl, ?_⟩⟩
              have hset := setNestedField_pair_absent "network" (Uval.obj cfg) hs
              simp [hset]
          | some w =>
              cases w with
              | obj sm =>
                  right
                  refine ⟨cfg, rfl, rfl, Or.inl ⟨sm, rfl, ?_⟩⟩
                  have hset := setNestedField_pair_obj "network" (Uval.obj cfg) hs
                  simp [hset]
              | str s =>
                  left
                  have hset := setNestedField_pair_notObj "network" (Uval.obj cfg)
                    hs (by intro m2 hm; exact Uval.noConfusion hm)
                  simp [hset]
              | num n =>
                  left
                  have hset := setNestedField_pair_notObj "network" (Uval.obj cfg)
                    hs (by intro m2 hm; exact Uval.noConfusion hm)
                  simp [hset]
              | bool bb =>
                  left
                  have hset := setNestedField_pair_notObj "network" (Uval.obj cfg)
                    hs (by intro m2 hm; exact Uval.noConfusion hm)
                  simp [hset]
              | null =>
                  left
                  have hset := setNestedField_pair_notObj "network" (Uval.obj cfg)
                    hs (by intro m2 hm; exact Uval.noConfusion hm)
                  simp [hset]
              | arr l =>
                  left
                  have hset := setNestedField_pair_notObj "network" (Uval.obj cfg)
                    hs (by intro m2 hm; exact Uval.noConfusion hm)
                  simp [hset]

/-! ### Frame and postcondition lemmas for the sanitization steps -/

theorem strMapToUObj_filter_comm (l : List (String × String)) (key : String) :
    strMapToUObj (l.filter (fun p => ¬ p.1 = key)) =
      (strMapToUObj l).filter (fun p => ¬ p.1 = key) := by
  induction l with
  | nil => rfl
  | cons p rest ih =>
      by_cases h : p.1 = key <;>
        simp [strMapToUObj, List.filter_cons, h] <;>
        simpa [strMapToUObj] using ih

theorem objGet_filter_key_ne (l : UObj) (key k : String) (h : ¬ k = key) :
    objGet (l.filter (fun p => ¬ p.1 = key)) k = objGet l k := by
  have hkk : ¬ key = k := fun hh => h hh.symm
  induction l with
  | nil => rfl
  | cons p rest ih =>
      simp only [decide_not] at ih ⊢
      by_cases hp : p.1 = key
      · have hk : ¬ p.1 = k := by rw [hp]; exact hkk
        simp [List.filter_cons, hp, objGet, hk, hkk, h, ih]
      · by_cases hk : p.1 = k <;>
          simp [List.filter_cons, hp, objGet, hk, hkk, h, ih]

theorem any_filter_key_false (l : List (String × String)) (key : String) :
    (l.filter (fun p => ¬ p.1 = key)).any (fun p => p.1 = key) = false := by
  induction l with
  | nil => rfl
  | cons p rest ih =>
      by_cases hp : p.1 = key <;> simp [List.filter_cons, hp, ih]

theorem removeInstanceUUID_get_ne (o : UObj) (k : String) (h : ¬ k = "spec") :
    objGet (removeInstanceUUID o).1 k = objGet o k := by
  rcases removeInstanceUUID_eq o with heq | ⟨sm, s, h1, h2, h3, heq⟩
  · rw [heq]
  · simp [heq, objGet_objSet_ne o "spec" k _ h]

theorem removeInstanceUUID_head_ne (o : UObj) (a : String) (rest : List String)
    (h : ¬ a = "spec") :
    nestedField (removeInstanceUUID o).1 (a :: rest) = nestedField o (a :: rest) :=
  nestedField_congr_head rest (removeInstanceUUID_get_ne o a h)

theorem removeInstanceUUID_spec_ne (o : UObj) (k : String)
    (h : ¬ k = "instanceUUID") :
    nestedField (removeInstanceUUID o).1 ["spec", k] =
      nestedField o ["spec", k] := by
  rcases removeInstanceUUID_eq o with heq | ⟨sm, s, h1, h2, h3, heq⟩
  · rw [heq]
  · simp [heq, nestedField_pair, h1, objGet_objSet_self,
      objGet_objSet_ne sm "instanceUUID" k _ h]

theorem removeInstanceUUID_post (o : UObj) :
    nestedString (removeInstanceUUID o).1 ["spec", "instanceUUID"] = none ∨
    nestedString (removeInstanceUUID o).1 ["spec", "instanceUUID"] = some "" := by
  rcases removeInstanceUUID_eq o with heq | ⟨sm, s, h1, h2, h3, heq⟩
  · rw [heq]
    cases hs : nestedString o ["spec", "instanceUUID"] with
    | none => left; rfl
    | some s =>
        by_cases he : s = ""
        · right; rw [he]
        · exfalso
          unfold removeInstanceUUID at heq
          rw [hs] at heq
          simp [he] at heq
  · right
    simp [heq, nestedString, nestedField_pair, objGet_objSet_self]

theorem removeInstanceUUID_of_clean (o : UObj)
    (h : nestedString o ["spec", "instanceUUID"] = none ∨
         nestedString o ["spec", "instanceUUID"] = some "") :
    removeInstanceUUID o = (o, false) := by
  unfold removeInstanceUUID
  rcases h with h | h <;> rw [h]
  rfl

theorem removeFirstBoot_get_ne (o : UObj) (k : String) (h : ¬ k = "metadata") :
    objGet (removeFirstBootDone o).1 k = objGet o k := by
  rcases removeFirstBootDone_eq o with heq | ⟨md, ann, sann, h1, h2, h3, h4, heq⟩
  · rw [heq]
  · simp [heq, objGet_objSet_ne o "metadata" k _ h]

theorem removeFirstBoot_head_ne (o : UObj) (a : String) (rest : List String)
    (h : ¬ a = "metadata") :
    nestedField (removeFirstBootDone o).1 (a :: rest) =
      nestedField o (a :: rest) :=
  nestedField_congr_head rest (removeFirstBoot_get_ne o a h)

theorem removeFirstBoot_md_ne (o : UObj) (k : String) (h : ¬ k = "annotations") :
    nestedField (removeFirstBootDone o).1 ["metadata", k] =
      nestedField o ["metadata", k] := by
  rcases removeFirstBootDone_eq o with heq | ⟨md, ann, sann, h1, h2, h3, h4, heq⟩
  · rw [heq]
  · simp [heq, nestedField_pair, h1, objGet_objSet_self,
      objGet_objSet_ne md "annotations" k _ h]

theorem removeFirstBoot_ann_ne (o : UObj) (k : String)
    (h : ¬ k = firstBootDoneAnnotation) :
    nestedField (removeFirstBootDone o).1 ["metadata", "annotations", k] =
      nestedField o ["metadata", "annotations", k] := by
  rcases removeFirstBootDone_eq o with heq | ⟨md, ann, sann, h1, h2, h3, h4, heq⟩
  · rw [heq]
  · have hcomm := strMapToUObj_filter_comm sann firstBootDoneAnnotation
    have hget := objGet_filter_key_ne (strMapToUObj sann) firstBootDoneAnnotation k h
    have hmap := strMapToUObj_of_allStrings h3
    simp only [decide_not] at hcomm hget
    simp [heq, nestedField_cons, nestedField_single, h1, h2, objGet_objSet_self]
    rw [hcomm, hget, hmap]

theorem removeFirstBoot_post (o : UObj) (sann' : List (String × String))
    (h : nestedStringMap (removeFirstBootDone o).1
        ["metadata", "annotations"] = some sann') :
    sann'.any (fun p => p.1 = firstBootDoneAnnotation) = false := by
  rcases removeFirstBootDone_eq o with heq | ⟨md, ann, sann, h1, h2, h3, h4, heq⟩
  · rw [heq] at h
    cases hs : nestedStringMap o ["metadata", "annotations"] with
    | none => rw [hs] at h; exact absurd h (by simp)
    | some sann =>
        rw [hs] at h
        simp at h
        subst h
        by_cases ha : sann.any (fun p => p.1 = firstBootDoneAnnotation) = true
        · exfalso
          unfold removeFirstBootDone at heq
          rw [hs] at heq
          simp [ha] at heq
        · exact Bool.eq_false_iff.mpr ha
  · rw [heq] at h
    unfold nestedStringMap nestedMap at h
    rw [nestedField_pair] at h
    rw [objGet_objSet_self] at h
    simp [objGet_objSet_self, allStrings_strMapToUObj] at h
    subst h
    simpa only [decide_not] using
      any_filter_key_false sann firstBootDoneAnnotation

theorem removeFirstBoot_of_clean (o : UObj)
    (h : ∀ sann, nestedStringMap o ["metadata", "annotations"] = some sann →
         sann.any (fun p => p.1 = firstBootDoneAnnotation) = false) :
    removeFirstBootDone o = (o, false) := by
  unfold removeFirstBootDone
  cases hs : nestedStringMap o ["metadata", "annotations"] with
  | none => rfl
  | some sann => simp [h sann hs]

theorem inject_get_ne (o : UObj) (k : String) (h : ¬ k = "spec") :
    objGet (injectNetworkConfigFromStatus o).1 k = objGet o k := by
  rcases injectNetworkConfigFromStatus_eq o with heq |
    ⟨cfg, h1, h2, ⟨sm, hs, heq⟩ | ⟨hs, heq⟩⟩
  · rw [heq]
  · simp [heq, objGet_objSet_ne o "spec" k _ h]
  · simp [heq, objGet_objSet_ne o "spec" k _ h]

theorem inject_head_ne (o : UObj) (a : String) (rest : List String)
    (h : ¬ a = "spec") :
    nestedField (injectNetworkConfigFromStatus o).1 (a :: rest) =
      nestedField o (a :: rest) :=
  nestedField_congr_head rest (inject_get_ne o a h)

theorem inject_spec_ne (o : UObj) (k : String) (h : ¬ k = "network") :
    nestedField (injectNetworkConfigFromStatus o).1 ["spec", k] =
      nestedField o ["spec", k] := by
  rcases injectNetworkConfigFromStatus_eq o with heq |
    ⟨cfg, h1, h2, ⟨sm, hs, heq⟩ | ⟨hs, heq⟩⟩
  · rw [heq]
  · simp [heq, nestedField_pair, hs, objGet_objSet_self,
      objGet_objSet_ne sm "network" k _ h]
  · simp [heq, nestedField_pair, hs, objGet_objSet_self, objGet, Ne.symm h]

theorem inject_of_present (o : UObj) (m : UObj)
    (h : nestedMap o ["spec", "network"] = some m) :
    injectNetworkConfigFromStatus o = (o, false) := by
  unfold injectNetworkConfigFromStatus
  rw [h]

theorem inject_idem (o : UObj) :
    injectNetworkConfigFromStatus (injectNetworkConfigFromStatus o).1 =
      ((injectNetworkConfigFromStatus o).1, false) := by
  rcases injectNetworkConfigFromStatus_eq o with heq |
    ⟨cfg, h1, h2, ⟨sm, hs, heq⟩ | ⟨hs, heq⟩⟩
  · rw [heq]
    exact heq
  · have hnet : nestedMap (injectNetworkConfigFromStatus o).1
        ["spec", "network"] = some cfg := by
      simp [heq, nestedMap, nestedField_pair, objGet_objSet_self]
    exact inject_of_present _ cfg hnet
  · have hnet : nestedMap (injectNetworkConfigFromStatus o).1
        ["spec", "network"] = some cfg := by
      simp [heq, nestedMap, nestedField_pair, objGet_objSet_self, objGet]
    exact inject_of_present _ cfg hnet

/-! ### Composite lemmas about `vmSanitize` -/

theorem nestedString_congr {o o' : UObj} {p : List String}
    (h : nestedField o' p = nestedField o p) :
    nestedString o' p = nestedString o p := by
  unfold nestedString; rw [h]

theorem nestedMap_congr {o o' : UObj} {p : List String}
    (h : nestedField o' p = nestedField o p) :
    nestedMap o' p = nestedMap o p := by
  unfold nestedMap; rw [h]

theorem nestedStringMap_congr {o o' : UObj} {p : List String}
    (h : nestedField o' p = nestedField o p) :
    nestedStringMap o' p = nestedStringMap o p := by
  unfold nestedStringMap; rw [nestedMap_congr h]

theorem vmSanitize_fst (o : UObj) :
    (vmSanitize o).1 =
      (injectNetworkConfigFromStatus
        (removeFirstBootDone (removeInstanceUUID o).1).1).1 := rfl

theorem vmSanitize_get_ne (o : UObj) (k : String)
    (h1 : ¬ k = "spec") (h2 : ¬ k = "metadata") :
    objGet (vmSanitize o).1 k = objGet o k := by
  rw [vmSanitize_fst, inject_get_ne _ k h1, removeFirstBoot_get_ne _ k h2,
    removeInstanceUUID_get_ne o k h1]

theorem vmSanitize_head_ne (o : UObj) (a : String) (rest : List String)
    (h1 : ¬ a = "spec") (h2 : ¬ a = "metadata") :
    nestedField (vmSanitize o).1 (a :: rest) = nestedField o (a :: rest) :=
  nestedField_congr_head rest (vmSanitize_get_ne o a h1 h2)

theorem vmSanitize_spec_ne (o : UObj) (k : String)
    (h1 : ¬ k = "instanceUUID") (h2 : ¬ k = "network") :
    nestedField (vmSanitize o).1 ["spec", k] = nestedField o ["spec", k] := by
  rw [vmSanitize_fst, inject_spec_ne _ k h2,
    removeFirstBoot_head_ne _ "spec" [k] (by decide),
    removeInstanceUUID_spec_ne o k h1]

theorem vmSanitize_md_ne (o : UObj) (k : String) (h : ¬ k = "annotations") :
    nestedField (vmSanitize o).1 ["metadata", k] =
      nestedField o ["metadata", k] := by
  rw [vmSanitize_fst, inject_head_ne _ "metadata" [k] (by decide),
    removeFirstBoot_md_ne _ k h,
    removeInstanceUUID_head_ne o "metadata" [k] (by decide)]

theorem vmSanitize_ann_ne (o : UObj) (k : String)
    (h : ¬ k = firstBootDoneAnnotation) :
    nestedField (vmSanitize o).1 ["metadata", "annotations", k] =
      nestedField o ["metadata", "annotations", k] := by
  rw [vmSanitize_fst, inject_head_ne _ "metadata" ["annotations", k] (by decide),
    removeFirstBoot_ann_ne _ k h,
    removeInstanceUUID_head_ne o "metadata" ["annotations", k] (by decide)]

theorem vmSanitize_iid_post (o : UObj) :
    nestedString (vmSanitize o).1 ["spec", "instanceUUID"] = none ∨
    nestedString (vmSanitize o).1 ["spec", "instanceUUID"] = some "" := by
  have hcong : nestedString (vmSanitize o).1 ["spec", "instanceUUID"] =
      nestedString (removeInstanceUUID o).1 ["spec", "instanceUUID"] := by
    rw [vmSanitize_fst,
      nestedString_congr (inject_spec_ne _ "instanceUUID" (by decide)),
      nestedString_congr (removeFirstBoot_head_ne _ "spec" ["instanceUUID"]
        (by decide))]
  rw [hcong]
  exact removeInstanceUUID_post o

theorem vmSanitize_ann_post (o : UObj) :
    ∀ sann', nestedStringMap (vmSanitize o).1 ["metadata", "annotations"] =
        some sann' →
      sann'.any (fun p => p.1 = firstBootDoneAnnotation) = false := by
  intro sann' h
  rw [vmSanitize_fst,
    nestedStringMap_congr (inject_head_ne _ "metadata" ["annotations"]
      (by decide))] at h
  exact removeFirstBoot_post _ sann' h

theorem vmSanitize_idem (o : UObj) :
    vmSanitize (vmSanitize o).1 = ((vmSanitize o).1, false) := by
  have h1 : removeInstanceUUID (vmSanitize o).1 = ((vmSanitize o).1, false) :=
    removeInstanceUUID_of_clean _ (vmSanitize_iid_post o)
  have h2 : removeFirstBootDone (vmSanitize o).1 =
      ((vmSanitize o).1, false) :=
    removeFirstBoot_of_clean _ (vmSanitize_ann_post o)
  have h3 : injectNetworkConfigFromStatus (vmSanitize o).1 =
      ((vmSanitize o).1, false) :=
    inject_idem (removeFirstBootDone (removeInstanceUUID o).1).1
  set x := (vmSanitize o).1 with hx
  show vmSanitize x = (x, false)
  unfold vmSanitize
  rw [h1]
  simp only []
  rw [h2]
  simp only []
  rw [h3]
  simp

theorem removeInstanceUUID_false (o : UObj)
    (h : (removeInstanceUUID o).2 = false) : (removeInstanceUUID o).1 = o := by
  rcases removeInstanceUUID_eq o with heq | ⟨sm, s, h1, h2, h3, heq⟩
  · rw [heq]
  · rw [heq] at h; exact absurd h (by simp)

theorem removeFirstBoot_false (o : UObj)
    (h : (removeFirstBootDone o).2 = false) :
    (removeFirstBootDone o).1 = o := by
  rcases removeFirstBootDone_eq o with heq |
    ⟨md, ann, sann, h1, h2, h3, h4, heq⟩
  · rw [heq]
  · rw [heq] at h; exact absurd h (by simp)

theorem inject_false (o : UObj)
    (h : (injectNetworkConfigFromStatus o).2 = false) :
    (injectNetworkConfigFromStatus o).1 = o := by
  rcases injectNetworkConfigFromStatus_eq o with heq |
    ⟨cfg, h1, h2, ⟨sm, hs, heq⟩ | ⟨hs, heq⟩⟩
  · rw [heq]
  · rw [heq] at h; exact absurd h (by simp)
  · rw [heq] at h; exact absurd h (by simp)

theorem vmSanitize_false (o : UObj) (h : (vmSanitize o).2 = false) :
    (vmSanitize o).1 = o := by
  have hsnd : (vmSanitize o).2 =
      ((removeInstanceUUID o).2 ||
       (removeFirstBootDone (removeInstanceUUID o).1).2 ||
       (injectNetworkConfigFromStatus
         (removeFirstBootDone (removeInstanceUUID o).1).1).2) := rfl
  rw [hsnd] at h
  simp only [Bool.or_eq_false_iff] at h
  obtain ⟨⟨hb1, hb2⟩, hb3⟩ := h
  have e1 := removeInstanceUUID_false o hb1
  have e2 := removeFirstBoot_false _ hb2
  have e3 := inject_false _ hb3
  rw [vmSanitize_fst, e3, e2, e1]

theorem nestedMap_eq_some {o : UObj} {p : List String} {m : UObj}
    (h : nestedMap o p = some m) : nestedField o p = some (Uval.obj m) := by
  unfold nestedMap at h
  cases hf : nestedField o p with
  | none => rw [hf] at h; exact absurd h (by simp)
  | some w => rw [hf] at h; cases w <;> simp_all

/-- Closed form of `vmRestoreExecute` used by the claim proofs. -/
theorem vmRestoreExecute_eq (item : UObj) :
    vmRestoreExecute item =
      (fromUnstructuredVM (vmSanitize item).1).map (fun vm =>
        if vm.spec.groupName = "" then
          { updatedItem := if (vmSanitize item).2 then (vmSanitize item).1 else item
            additionalItems := []
            waitForAdditionalItems := false }
        else
          { updatedItem := if (vmSanitize item).2 then (vmSanitize item).1 else item
            additionalItems :=
              [vmGroupIdentifier
                ((nestedString item ["metadata", "namespace"]).getD "")
                vm.spec.groupName]
            waitForAdditionalItems := true }) := rfl

/-! ## Claim theorems -/

/-- C8: for every input object that cannot be interpreted as the expected
shape, each of the three operations returns an error to the caller (and
conversely each returns an error only then): the backup action fails
exactly when the VirtualMachineGroup conversion fails, the PVC restore
action exactly when the PVC conversion fails, and the VM restore action
exactly when the typed VM conversion of the sanitized object fails.
Each call processes a single object, so the failure aborts only that
object. -/
theorem conversion_failure_surfaces :
    (∀ item fetch, vmGroupBackupExecute item fetch = none ↔
        fromUnstructuredVMGroup item = none) ∧
    (∀ item, pvcRestoreExecute item = none ↔ fromUnstructuredPVC item = none) ∧
    (∀ item, vmRestoreExecute item = none ↔
        fromUnstructuredVM (vmSanitize item).1 = none) := by
  refine ⟨fun item fetch => ?_, fun item => ?_, fun item => ?_⟩
  · simp [vmGroupBackupExecute]
  · simp [pvcRestoreExecute]
  · rw [vmRestoreExecute_eq]
    simp

/-- C5: the ordering advisor of the VM restore action produces a hint
exactly when the converted object declares a non-empty group name: the
hint is the single VirtualMachineGroup identifier in the object's own
namespace with wait set; an empty group name produces no hint and no
wait. -/
theorem ordering_advisor_hint (item : UObj) (vm : VirtualMachine)
    (out : RestoreItemActionExecuteOutput)
    (hvm : fromUnstructuredVM (vmSanitize item).1 = some vm)
    (hout : vmRestoreExecute item = some out) :
    (¬ vm.spec.groupName = "" →
      out.additionalItems =
        [vmGroupIdentifier
          ((nestedString item ["metadata", "namespace"]).getD "")
          vm.spec.groupName] ∧
      out.waitForAdditionalItems = true) ∧
    (vm.spec.groupName = "" →
      out.additionalItems = [] ∧ out.waitForAdditionalItems = false) := by
  rw [vmRestoreExecute_eq, hvm] at hout
  simp at hout
  by_cases hg : vm.spec.groupName = ""
  · rw [if_pos hg] at hout
    rw [← hout]
    exact ⟨fun hne => absurd hg hne, fun _ => ⟨rfl, rfl⟩⟩
  · rw [if_neg hg] at hout
    rw [← hout]
    exact ⟨fun _ => ⟨rfl, rfl⟩, fun he => absurd he hg⟩

/-- C5 witness: the VM declaring group `g1` gets exactly the group hint
with wait. -/
theorem ordering_advisor_hint_witness :
    vmRestoreExecute vmWithGroupItem = some vmWithGroupOut ∧
    vmWithGroupOut.additionalItems = [vmGroupIdentifier "ns" "g1"] ∧
    vmWithGroupOut.waitForAdditionalItems = true := by
  have h := ordering_advisor_hint vmWithGroupItem vmWithGroupTyped
    vmWithGroupOut (by decide) (by decide)
  exact ⟨by decide, (h.1 (by decide)).1, (h.1 (by decide)).2⟩

/-- C9: in every successful VM restore output, the additional-items list
is empty or a single VirtualMachineGroup identifier in the object's own
namespace with a non-empty name, and the wait flag is set exactly when
the list is non-empty. -/
theorem restore_output_invariant (item : UObj)
    (out : RestoreItemActionExecuteOutput)
    (hout : vmRestoreExecute item = some out) :
    (out.waitForAdditionalItems = true ↔ ¬ out.additionalItems = []) ∧
    (out.additionalItems = [] ∨
      ∃ g, ¬ g = "" ∧ out.additionalItems =
        [vmGroupIdentifier
          ((nestedString item ["metadata", "namespace"]).getD "") g]) := by
  rw [vmRestoreExecute_eq] at hout
  cases hvm : fromUnstructuredVM (vmSanitize item).1 with
  | none => rw [hvm] at hout; exact absurd hout (by simp)
  | some vm =>
      rw [hvm] at hout
      simp at hout
      by_cases hg : vm.spec.groupName = ""
      · rw [if_pos hg] at hout
        rw [← hout]
        exact ⟨by simp, Or.inl rfl⟩
      · rw [if_neg hg] at hout
        rw [← hout]
        refine ⟨by simp, Or.inr ⟨vm.spec.groupName, hg, rfl⟩⟩

/-- C9 witness: the invariant evaluated on a concrete no-group output. -/
theorem restore_output_invariant_witness :
    vmRestoreExecute vmNoGroupItem = some vmNoGroupOut ∧
    (vmNoGroupOut.waitForAdditionalItems = true ↔
      ¬ vmNoGroupOut.additionalItems = []) := by
  refine ⟨by decide, ?_⟩
  exact (restore_output_invariant vmNoGroupItem vmNoGroupOut (by decide)).1

theorem resource_of_mem_extractSecrets {vm : VirtualMachine} {ns : String}
    {x : ResourceIdentifier} (hx : x ∈ extractSecretsFromVM vm ns) :
    x.resource = "secrets" := by
  unfold extractSecretsFromVM at hx
  split at hx
  · exact absurd hx (by simp)
  · split at hx
    · exact absurd hx (by simp)
    · split at hx
      · exact absurd hx (by simp)
      · split at hx
        · exact absurd hx (by simp)
        · simp at hx; subst hx; rfl

theorem resource_of_mem_extractPVCs {vm : VirtualMachine} {ns : String}
    {x : ResourceIdentifier} (hx : x ∈ extractPVCsFromVM vm ns) :
    x.resource = "persistentvolumeclaims" := by
  unfold extractPVCsFromVM at hx
  rw [List.mem_filterMap] at hx
  obtain ⟨vol, hvol, hf⟩ := hx
  split at hf
  · exact absurd hf (by simp)
  · split at hf
    · exact absurd hf (by simp)
    · simp at hf; subst hf; rfl

theorem count_vmIdentifier_memberItems
    (fetch : String → String → Option VirtualMachine) (ns nm name : String) :
    (memberItems fetch ns name).count (vmIdentifier ns nm) =
      if name = nm then 1 else 0 := by
  unfold memberItems
  rw [List.count_cons]
  have hdeps : (match fetch ns name with
      | none => []
      | some vm =>
          extractSecretsFromVM vm ns ++ extractPVCsFromVM vm ns).count
        (vmIdentifier ns nm) = 0 := by
    cases hfv : fetch ns name with
    | none => rfl
    | some vm =>
        rw [List.count_eq_zero]
        intro hmem
        rw [List.mem_append] at hmem
        rcases hmem with hm | hm
        · have hres := resource_of_mem_extractSecrets hm
          simp [vmIdentifier] at hres
        · have hres := resource_of_mem_extractPVCs hm
          simp [vmIdentifier] at hres
  rw [hdeps]
  by_cases hn : name = nm
  · subst hn; simp
  · simp [vmIdentifier, hn]

theorem count_members_flatMap (ns nm : String)
    (fetch : String → String → Option VirtualMachine)
    (ms : List GroupMember) :
    (ms.flatMap (fun member => memberItems fetch ns member.name)).count
        (vmIdentifier ns nm) =
      (ms.map (fun m => m.name)).count nm := by
  induction ms with
  | nil => rfl
  | cons m rest ih =>
      rw [List.flatMap_cons, List.count_append,
        count_vmIdentifier_memberItems, List.map_cons, List.count_cons, ih]
      by_cases hn : m.name = nm <;> simp [hn, Nat.add_comm]

theorem count_bootOrders_flatMap (ns nm : String)
    (fetch : String → String → Option VirtualMachine)
    (bos : List BootOrderGroup) :
    (bos.flatMap (fun bootOrder =>
        bootOrder.members.flatMap (fun member =>
          memberItems fetch ns member.name))).count (vmIdentifier ns nm) =
      ((bos.flatMap (fun bo => bo.members)).map (fun m => m.name)).count nm := by
  induction bos with
  | nil => rfl
  | cons bo rest ih =>
      rw [List.flatMap_cons, List.count_append, ih, List.flatMap_cons,
        List.map_append, List.count_append, count_members_flatMap]

/-- C1 counterexample: a member named in two boot phases yields its VM
identifier twice in the extraction result — duplicates are not
collapsed, so the result does not contain exactly one identifier for
it. -/
theorem duplicate_members_not_collapsed :
    (vmGroupAdditionalItems dupMemberGroup (fun _ _ => none)).count
        (vmIdentifier "ns" "m1") = 2 ∧
    ¬ (vmGroupAdditionalItems dupMemberGroup (fun _ _ => none)).count
        (vmIdentifier "ns" "m1") = 1 := by decide

/-- C1 amended: the extraction result contains one VM identifier per
occurrence of the member name across all boot phases (duplicates are
kept, not collapsed; deduplication is left to the caller). -/
theorem duplicate_members_counted (g : VirtualMachineGroup)
    (bos : List BootOrderGroup)
    (fetch : String → String → Option VirtualMachine) (nm : String)
    (h : g.spec.bootOrder = some bos) :
    (vmGroupAdditionalItems g fetch).count (vmIdentifier g.ns nm) =
      ((bos.flatMap (fun bo => bo.members)).map (fun m => m.name)).count nm := by
  unfold vmGroupAdditionalItems
  rw [h]
  exact count_bootOrders_flatMap g.ns nm fetch bos

/-- C1 amended witness: the duplicate-member group evaluated through the
amended claim. -/
theorem duplicate_members_counted_witness :
    dupMemberGroup.spec.bootOrder = some ([
      { members := [{ name := "m1" }] },
      { members := [{ name := "m1" }] }]) ∧
    (vmGroupAdditionalItems dupMemberGroup (fun _ _ => none)).count
        (vmIdentifier dupMemberGroup.ns "m1") =
      ((([({ members := [{ name := "m1" }] } : BootOrderGroup),
          { members := [{ name := "m1" }] }]).flatMap
            (fun bo => bo.members)).map (fun m => m.name)).count "m1" :=
  ⟨rfl, duplicate_members_counted dupMemberGroup _ (fun _ _ => none) "m1" rfl⟩

/-- C4: when the fetch for one member fails, that member contributes
exactly its own VM identifier (no secret or PVC), every member's items
are still in the result, and the backup action still succeeds for the
whole group. -/
theorem fetch_failure_partial (g : VirtualMachineGroup)
    (bos : List BootOrderGroup) (bo : BootOrderGroup) (m : GroupMember)
    (fetch : String → String → Option VirtualMachine) (item : UObj)
    (hconv : fromUnstructuredVMGroup item = some g)
    (hb : g.spec.bootOrder = some bos) (hbo : bo ∈ bos) (hm : m ∈ bo.members)
    (hf : fetch g.ns m.name = none) :
    memberItems fetch g.ns m.name = [vmIdentifier g.ns m.name] ∧
    vmIdentifier g.ns m.name ∈ vmGroupAdditionalItems g fetch ∧
    (∀ bo2 m2, bo2 ∈ bos → m2 ∈ bo2.members →
      ∀ x ∈ memberItems fetch g.ns m2.name,
        x ∈ vmGroupAdditionalItems g fetch) ∧
    vmGroupBackupExecute item fetch =
      some (item, vmGroupAdditionalItems g fetch) := by
  have hmem : memberItems fetch g.ns m.name = [vmIdentifier g.ns m.name] := by
    unfold memberItems
    rw [hf]
  refine ⟨hmem, ?_, ?_, ?_⟩
  · unfold vmGroupAdditionalItems
    rw [hb, List.mem_flatMap]
    refine ⟨bo, hbo, ?_⟩
    rw [List.mem_flatMap]
    refine ⟨m, hm, ?_⟩
    rw [hmem]
    simp
  · intro bo2 m2 hbo2 hm2 x hx
    unfold vmGroupAdditionalItems
    rw [hb, List.mem_flatMap]
    refine ⟨bo2, hbo2, ?_⟩
    rw [List.mem_flatMap]
    exact ⟨m2, hm2, hx⟩
  · unfold vmGroupBackupExecute
    rw [hconv]
    rfl

/-- C4 witness: the two-member group with one failing fetch. -/
theorem fetch_failure_partial_witness :
    memberItems partialFailureFetch "ns" "vm-broken" =
      [vmIdentifier "ns" "vm-broken"] ∧
    vmIdentifier "ns" "vm-broken" ∈
      vmGroupAdditionalItems partialFailureGroup partialFailureFetch ∧
    vmGroupBackupExecute partialFailureGroupItem partialFailureFetch =
      some (partialFailureGroupItem,
        vmGroupAdditionalItems partialFailureGroup partialFailureFetch) := by
  have h := fetch_failure_partial partialFailureGroup
    [{ members := [{ name := "vm-broken" }, { name := "vm-1" }] }]
    { members := [{ name := "vm-broken" }, { name := "vm-1" }] }
    { name := "vm-broken" }
    partialFailureFetch partialFailureGroupItem
    (by decide) rfl (by decide) (by decide) (by decide)
  exact ⟨h.1, h.2.1, h.2.2.2⟩

/-- C7: a member without a complete bootstrap-secret chain (or with an
empty secret name) contributes no Secret identifier, and every emitted
PVC identifier originates from a volume bound to a non-empty claim name
(volumes without a claim contribute nothing). -/
theorem missing_refs_no_emission (vm : VirtualMachine) (ns : String)
    (hsec : ∀ b ci rcc, vm.spec.bootstrap = some b → b.cloudInit = some ci →
      ci.rawCloudConfig = some rcc → rcc.name = "") :
    extractSecretsFromVM vm ns = [] ∧
    ∀ x ∈ extractPVCsFromVM vm ns, ∃ vol, vol ∈ vm.spec.volumes ∧
      ∃ p, vol.persistentVolumeClaim = some p ∧ ¬ p.claimName = "" ∧
        x.name = p.claimName := by
  constructor
  · unfold extractSecretsFromVM
    cases hb : vm.spec.bootstrap with
    | none => rfl
    | some b =>
        cases hci : b.cloudInit with
        | none => simp [hci]
        | some ci =>
            cases hrcc : ci.rawCloudConfig with
            | none => simp [hci, hrcc]
            | some rcc =>
                have hname := hsec b ci rcc hb hci hrcc
                simp [hci, hrcc, hname]
  · intro x hx
    unfold extractPVCsFromVM at hx
    rw [List.mem_filterMap] at hx
    obtain ⟨vol, hvol, hfx⟩ := hx
    cases hp : vol.persistentVolumeClaim with
    | none => rw [hp] at hfx; exact absurd hfx (by simp)
    | some p =>
        rw [hp] at hfx
        by_cases hc : p.claimName = ""
        · simp [hc] at hfx
        · simp [hc] at hfx
          exact ⟨vol, hvol, p, hp, hc, by rw [← hfx]⟩

/-- C7 witness: a member whose bootstrap chain stops before the secret
name and whose single volume is unbound emits nothing. -/
theorem missing_refs_no_emission_witness :
    extractSecretsFromVM memberNoDeps "ns" = [] ∧
    extractPVCsFromVM memberNoDeps "ns" = [] := by
  have h := missing_refs_no_emission memberNoDeps "ns"
    (by
      intro b ci rcc hb hci hrcc
      have hb' : b = { cloudInit := some { rawCloudConfig := none } } := by
        have he : memberNoDeps.spec.bootstrap =
            some { cloudInit := some { rawCloudConfig := none } } := rfl
        rw [he] at hb
        exact (Option.some.inj hb).symm
      subst hb'
      have hci' : ci = { rawCloudConfig := none } := (Option.some.inj hci).symm
      subst hci'
      exact absurd hrcc (by simp))
  exact ⟨h.1, by decide⟩

/-! ### Lemmas about the PVC typed round trip -/

theorem fromUnstructuredPVC_toUnstructuredPVC (t : PersistentVolumeClaim) :
    fromUnstructuredPVC (toUnstructuredPVC t) = some (normAnnotations t) := by
  obtain ⟨av, kd, ns, nm, ann⟩ := t
  by_cases hav : av = "" <;> by_cases hkd : kd = "" <;>
    by_cases hnm : nm = "" <;> by_cases hns : ns = "" <;>
      rcases ann with _ | (_ | ⟨p, l⟩) <;>
        simp [toUnstructuredPVC, fromUnstructuredPVC, parseStringField,
          parseStringMapField, getObjField, objGet, normAnnotations,
          allStrings_strMapToUObj, hav, hkd, hnm, hns]

theorem filter_key_idem (l : List (String × String)) (key : String) :
    (l.filter (fun p => ¬ p.1 = key)).filter (fun p => ¬ p.1 = key) =
      l.filter (fun p => ¬ p.1 = key) :=
  List.filter_eq_self.mpr (fun _ ha => (List.mem_filter.mp ha).2)

theorem strip_normAnnotations_strip (t : PersistentVolumeClaim) :
    removeVolumeHealth
        (normAnnotations (removeVolumeHealth t)) =
      normAnnotations (removeVolumeHealth t) := by
  obtain ⟨av, kd, ns, nm, ann⟩ := t
  rcases ann with _ | l
  · rfl
  · simp only [removeVolumeHealth, normAnnotations,
      Option.map_some', decide_not]
    cases hf : List.filter (fun p => !decide (p.1 = volumeHealthAnnotation)) l
      with
    | nil => rfl
    | cons q rest =>
        simp only [Option.map_some', PersistentVolumeClaim.mk.injEq,
          true_and, Option.some.injEq]
        rw [← hf]
        have hidem := filter_key_idem l volumeHealthAnnotation
        simp only [decide_not] at hidem
        exact hidem

theorem toUnstructuredPVC_normAnnotations (t : PersistentVolumeClaim) :
    toUnstructuredPVC (normAnnotations t) = toUnstructuredPVC t := by
  obtain ⟨av, kd, ns, nm, ann⟩ := t
  rcases ann with _ | (_ | ⟨p, l⟩) <;> rfl

theorem pvcRestoreExecute_idem (item out : UObj)
    (h : pvcRestoreExecute item = some out) :
    pvcRestoreExecute out = some out := by
  unfold pvcRestoreExecute at h
  cases hc : fromUnstructuredPVC item with
  | none => rw [hc] at h; exact absurd h (by simp)
  | some pvc =>
      rw [hc] at h
      simp at h
      subst h
      unfold pvcRestoreExecute
      rw [fromUnstructuredPVC_toUnstructuredPVC]
      simp only [Option.map_some', Option.some.injEq]
      rw [strip_normAnnotations_strip, toUnstructuredPVC_normAnnotations]

/-- C6: sanitization is idempotent: a second run of the VM sanitizer
performs no mutation and reports no change, and a second run of the PVC
restore action returns its input unchanged. -/
theorem sanitize_idempotent :
    (∀ o, vmSanitize (vmSanitize o).1 = ((vmSanitize o).1, false)) ∧
    (∀ item out, pvcRestoreExecute item = some out →
      pvcRestoreExecute out = some out) :=
  ⟨vmSanitize_idem, pvcRestoreExecute_idem⟩

/-- C6 witness: idempotence evaluated on a VM carrying every sanitized
field and on a PVC carrying the health annotation. -/
theorem sanitize_idempotent_witness :
    vmSanitize (vmSanitize sanitizeFrameItem).1 =
      ((vmSanitize sanitizeFrameItem).1, false) ∧
    pvcRestoreExecute pvcHealthyItem = some pvcNormalizedItem ∧
    pvcRestoreExecute pvcNormalizedItem = some pvcNormalizedItem :=
  ⟨sanitize_idempotent.1 sanitizeFrameItem, by decide,
    sanitize_idempotent.2 pvcHealthyItem pvcNormalizedItem (by decide)⟩

/-- C2 counterexample: a PVC with no health-check annotation is not
passed through byte-for-byte — the action returns the typed round trip
of the input, which drops the field outside the PVC schema, and no
change flag exists in the output. -/
theorem pvc_not_byte_for_byte :
    pvcRestoreExecute pvcExtraFieldItem = some pvcExtraFieldResult ∧
    ¬ pvcExtraFieldResult = pvcExtraFieldItem := by decide

/-- C2 amended: the VM-shaped sanitization reports whether a mutation
occurred and, when none did, returns its input byte-for-byte; the
PVC-shaped operation reports no flag and always returns the typed round
trip of the input, which is the input byte-for-byte only when the input
is already in normalized form (and carries no health annotation). -/
theorem sanitize_change_reporting :
    (∀ o, (vmSanitize o).2 = false → (vmSanitize o).1 = o) ∧
    (∀ item pvc, fromUnstructuredPVC item = some pvc →
      toUnstructuredPVC pvc = item →
      (∀ l, pvc.annotations = some l →
        ∀ p ∈ l, ¬ p.1 = volumeHealthAnnotation) →
      pvcRestoreExecute item = some item) := by
  refine ⟨vmSanitize_false, fun item pvc hconv hnorm hann => ?_⟩
  unfold pvcRestoreExecute
  rw [hconv]
  simp only [Option.map_some', Option.some.injEq]
  have hstrip : removeVolumeHealth pvc = pvc := by
    obtain ⟨av, kd, ns, nm, ann⟩ := pvc
    rcases ann with _ | l
    · rfl
    · simp only [removeVolumeHealth, Option.map_some',
        PersistentVolumeClaim.mk.injEq, true_and, Option.some.injEq]
      refine List.filter_eq_self.mpr (fun a ha => ?_)
      have := hann l rfl a ha
      simpa using this
  rw [hstrip, hnorm]

/-- C2 amended witness: a clean VM object reports no change and passes
through; a normalized annotation-free-of-health PVC passes through. -/
theorem sanitize_change_reporting_witness :
    (vmSanitize vmNoGroupItem).2 = false ∧
    (vmSanitize vmNoGroupItem).1 = vmNoGroupItem ∧
    pvcRestoreExecute pvcNormalizedItem = some pvcNormalizedItem := by
  refine ⟨by decide, sanitize_change_reporting.1 vmNoGroupItem (by decide),
    sanitize_change_reporting.2 pvcNormalizedItem pvcNormalizedTyped
      (by decide) (by decide) ?_⟩
  intro l hl p hp
  have he : pvcNormalizedTyped.annotations = some [("a", "b")] := rfl
  rw [he] at hl
  have hl' := Option.some.inj hl
  subst hl'
  simp at hp
  subst hp
  decide

/-! ### Claims about network-configuration injection (C3) and the
sanitization frame (C10) -/

/-- C3 counterexample: a VM with an empty-but-present `spec.network`
mapping and an observed `status.network.config` is NOT injected — after
sanitization `spec.network` is still the empty mapping, not the observed
configuration, contradicting the claim that an empty `spec.network` is
overwritten. -/
theorem empty_network_not_injected :
    nestedField (vmSanitize emptyNetworkItem).1 ["spec", "network"] =
      some (Uval.obj []) ∧
    nestedField emptyNetworkItem ["status", "network", "config"] =
      some (Uval.obj [("interfaces", Uval.str "eth0")]) ∧
    ¬ nestedField (vmSanitize emptyNetworkItem).1 ["spec", "network"] =
        nestedField emptyNetworkItem ["status", "network", "config"] ∧
    (vmSanitize emptyNetworkItem).2 = false := by decide

/-- C3 amended: when `spec.network` is present as a mapping (even an
empty one), sanitization leaves it byte-identical even when observed
status differs; when it is absent (and `spec` itself is absent or a
mapping), an observed `status.network.config` mapping is copied verbatim
into `spec.network`; when no such observed configuration exists,
`spec.network` is left as it was, without error. -/
theorem network_injection_amended :
    (∀ o m, nestedMap o ["spec", "network"] = some m →
      nestedField (vmSanitize o).1 ["spec", "network"] = some (Uval.obj m)) ∧
    (∀ o cfg, nestedMap o ["spec", "network"] = none →
      (objGet o "spec" = none ∨ ∃ sm, objGet o "spec" = some (Uval.obj sm)) →
      nestedMap o ["status", "network", "config"] = some cfg →
      nestedField (vmSanitize o).1 ["spec", "network"] = some (Uval.obj cfg)) ∧
    (∀ o, nestedMap o ["spec", "network"] = none →
      nestedMap o ["status", "network", "config"] = none →
      nestedField (vmSanitize o).1 ["spec", "network"] =
        nestedField o ["spec", "network"]) := by
  refine ⟨fun o m hm => ?_, fun o cfg hsn hsp hst => ?_, fun o hsn hst => ?_⟩
  · have hf := nestedMap_eq_some hm
    have t2 : nestedField
        (removeFirstBootDone (removeInstanceUUID o).1).1
        ["spec", "network"] = some (Uval.obj m) := by
      rw [removeFirstBoot_head_ne _ "spec" ["network"] (by decide),
        removeInstanceUUID_spec_ne o "network" (by decide)]
      exact hf
    have hm2 : nestedMap
        (removeFirstBootDone (removeInstanceUUID o).1).1
        ["spec", "network"] = some m := by
      unfold nestedMap
      rw [t2]
    rw [vmSanitize_fst, inject_of_present _ m hm2]
    exact t2
  · have tsn : nestedField
        (removeFirstBootDone (removeInstanceUUID o).1).1
        ["spec", "network"] = nestedField o ["spec", "network"] := by
      rw [removeFirstBoot_head_ne _ "spec" ["network"] (by decide),
        removeInstanceUUID_spec_ne o "network" (by decide)]
    have hsn2 : nestedMap
        (removeFirstBootDone (removeInstanceUUID o).1).1
        ["spec", "network"] = none := by
      unfold nestedMap at hsn ⊢
      rw [tsn]
      exact hsn
    have tst : nestedField
        (removeFirstBootDone (removeInstanceUUID o).1).1
        ["status", "network", "config"] =
        nestedField o ["status", "network", "config"] := by
      rw [removeFirstBoot_head_ne _ "status" ["network", "config"] (by decide),
        removeInstanceUUID_head_ne o "status" ["network", "config"] (by decide)]
    have hst2 : nestedMap
        (removeFirstBootDone (removeInstanceUUID o).1).1
        ["status", "network", "config"] = some cfg := by
      unfold nestedMap at hst ⊢
      rw [tst]
      exact hst
    have hsp2 : objGet
        (removeFirstBootDone (removeInstanceUUID o).1).1
        "spec" = none ∨
        ∃ sm2, objGet
          (removeFirstBootDone (removeInstanceUUID o).1).1
          "spec" = some (Uval.obj sm2) := by
      have e2 := removeFirstBoot_get_ne (removeInstanceUUID o).1 "spec"
        (by decide)
      rcases removeInstanceUUID_eq o with heq | ⟨sm, s, h1, h2, h3, heq⟩
      · rw [e2, heq]
        exact hsp
      · right
        rw [e2, heq]
        exact ⟨_, objGet_objSet_self o "spec" _⟩
    rw [vmSanitize_fst]
    unfold injectNetworkConfigFromStatus
    rw [hsn2, hst2]
    rcases hsp2 with hsp2 | ⟨sm2, hsp2⟩
    · have hset := setNestedField_pair_absent "network" (Uval.obj cfg) hsp2
      simp [hset, nestedField_pair, objGet_objSet_self, objGet]
    · have hset := setNestedField_pair_obj "network" (Uval.obj cfg) hsp2
      simp [hset, nestedField_pair, objGet_objSet_self]
  · have tsn : nestedField
        (removeFirstBootDone (removeInstanceUUID o).1).1
        ["spec", "network"] = nestedField o ["spec", "network"] := by
      rw [removeFirstBoot_head_ne _ "spec" ["network"] (by decide),
        removeInstanceUUID_spec_ne o "network" (by decide)]
    have hsn2 : nestedMap
        (removeFirstBootDone (removeInstanceUUID o).1).1
        ["spec", "network"] = none := by
      unfold nestedMap at hsn ⊢
      rw [tsn]
      exact hsn
    have tst : nestedField
        (removeFirstBootDone (removeInstanceUUID o).1).1
        ["status", "network", "config"] =
        nestedField o ["status", "network", "config"] := by
      rw [removeFirstBoot_head_ne _ "status" ["network", "config"] (by decide),
        removeInstanceUUID_head_ne o "status" ["network", "config"] (by decide)]
    have hst2 : nestedMap
        (removeFirstBootDone (removeInstanceUUID o).1).1
        ["status", "network", "config"] = none := by
      unfold nestedMap at hst ⊢
      rw [tst]
      exact hst
    rw [vmSanitize_fst]
    unfold injectNetworkConfigFromStatus
    rw [hsn2, hst2]
    simpa using tsn

/-- C3 amended witness: the absent-`spec.network` object receives the
observed configuration verbatim; the populated one keeps its own. -/
theorem network_injection_amended_witness :
    nestedField (vmSanitize absentNetworkItem).1 ["spec", "network"] =
      some (Uval.obj [("interfaces", Uval.str "eth0")]) ∧
    nestedField (vmSanitize populatedNetworkItem).1 ["spec", "network"] =
      some (Uval.obj [("interfaces", Uval.str "old")]) := by
  refine ⟨network_injection_amended.2.1 absentNetworkItem
      [("interfaces", Uval.str "eth0")] (by decide)
      (Or.inr ⟨[("groupName", Uval.str "")], by decide⟩) (by decide),
    network_injection_amended.1 populatedNetworkItem
      [("interfaces", Uval.str "old")] (by decide)⟩

/-- C10: a VM-shaped object with a non-empty `spec.instanceUUID` has the
field set to the empty string (it stays present, not deleted), and every
field other than `spec.instanceUUID`, the first-boot-done annotation key
and `spec.network` is unchanged by sanitization. -/
theorem instanceUUID_cleared_frame (o : UObj) (s : String)
    (hs : nestedString o ["spec", "instanceUUID"] = some s) (he : ¬ s = "") :
    nestedString (vmSanitize o).1 ["spec", "instanceUUID"] = some "" ∧
    (∀ k, ¬ k = "spec" → ¬ k = "metadata" →
      objGet (vmSanitize o).1 k = objGet o k) ∧
    (∀ k, ¬ k = "instanceUUID" → ¬ k = "network" →
      nestedField (vmSanitize o).1 ["spec", k] = nestedField o ["spec", k]) ∧
    (∀ k, ¬ k = "annotations" →
      nestedField (vmSanitize o).1 ["metadata", k] =
        nestedField o ["metadata", k]) ∧
    (∀ k, ¬ k = firstBootDoneAnnotation →
      nestedField (vmSanitize o).1 ["metadata", "annotations", k] =
        nestedField o ["metadata", "annotations", k]) := by
  refine ⟨?_, fun k h1 h2 => vmSanitize_get_ne o k h1 h2,
    fun k h1 h2 => vmSanitize_spec_ne o k h1 h2,
    fun k h => vmSanitize_md_ne o k h,
    fun k h => vmSanitize_ann_ne o k h⟩
  obtain ⟨sm, h1, h2⟩ := nestedString_pair_inv hs
  have r1 : nestedString (removeInstanceUUID o).1 ["spec", "instanceUUID"] =
      some "" := by
    unfold removeInstanceUUID
    rw [hs]
    simp [he, setNestedField_pair_obj "instanceUUID" (Uval.str "") h1,
      nestedString, nestedField_pair, objGet_objSet_self]
  have hcong : nestedString (vmSanitize o).1 ["spec", "instanceUUID"] =
      nestedString (removeInstanceUUID o).1 ["spec", "instanceUUID"] := by
    rw [vmSanitize_fst,
      nestedString_congr (inject_spec_ne _ "instanceUUID" (by decide)),
      nestedString_congr (removeFirstBoot_head_ne _ "spec" ["instanceUUID"]
        (by decide))]
  rw [hcong]
  exact r1

/-- C10 witness: the frame claim evaluated on a VM carrying an
instance UUID, annotations and a status section. -/
theorem instanceUUID_cleared_frame_witness :
    nestedString sanitizeFrameItem ["spec", "instanceUUID"] = some "abc" ∧
    nestedString (vmSanitize sanitizeFrameItem).1 ["spec", "instanceUUID"] =
      some "" ∧
    objGet (vmSanitize sanitizeFrameItem).1 "status" =
      objGet sanitizeFrameItem "status" ∧
    nestedField (vmSanitize sanitizeFrameItem).1
        ["metadata", "annotations", "keep"] =
      nestedField sanitizeFrameItem ["metadata", "annotations", "keep"] := by
  have h := instanceUUID_cleared_frame sanitizeFrameItem "abc"
    (by decide) (by decide)
  exact ⟨by decide, h.1, h.2.1 "status" (by decide) (by decide),
    h.2.2.2.2 "keep" (by decide)⟩

end VMPlugin
